import Mathlib

/-!
Verification of the runelite-quest-voiceover generation pipeline.

Shallow embedding of the Python sources:
  * `voiceover_cli/kokoro.py`    — `KokoroSDK` backend (cache, voice check, audio post-processing)
  * `voiceover_cli/elevenlabs.py`— `ElevenlabsSDK` backend (cache, remote synthesis)
  * `generate_kokoro.py`         — `KokoroTTS` backend, voice pools, database helpers, `main` loop
  * `auto_generate_tourist_trap.py` — orchestrator `main` loop with resume/quota handling

External effects are made explicit: the artifact directory is a list of file
names, each invocation of the underlying synthesis mechanism is recorded in a
trace, and the md5 digest and the TTS pipeline are opaque function parameters.
Texts are Lean `String`s; where character-level scanning matters the embedding
works on `String.data` (`List Char`).
-/

namespace QuestVoiceover

/-! ## Text sanitization

`generate_kokoro.py` line 215: `clean_text = text.replace("[player name]", "adventurer")`.
`replacePlayerName` mirrors Python `str.replace`: a single left-to-right scan,
replacing each non-overlapping occurrence of the pattern. -/

/-- The placeholder token `"[player name]"` as a character list. -/
def playerNamePat : List Char := "[player name]".data

/-- The generic replacement term `"adventurer"` as a character list. -/
def adventurerTerm : List Char := "adventurer".data

/-- Python `text.replace("[player name]", "adventurer")`: left-to-right scan,
each occurrence of the pattern is replaced and scanning resumes after it. -/
def replacePlayerName : List Char → List Char
  | [] => []
  | c :: cs =>
    if playerNamePat.isPrefixOf (c :: cs) then
      adventurerTerm ++ replacePlayerName ((c :: cs).drop playerNamePat.length)
    else
      c :: replacePlayerName cs
termination_by s => s.length
decreasing_by
  · have h13 : playerNamePat.length = 13 := rfl
    simp [h13, List.length_drop]
    omega
  · simp

/-- Python `str.strip()`: drop leading and trailing whitespace. -/
def pyStrip (s : List Char) : List Char :=
  ((s.dropWhile Char.isWhitespace).reverse.dropWhile Char.isWhitespace).reverse

/-- Characters kept by the sanitizer's special-character stripping. -/
def keepChar (c : Char) : Bool := c.isAlphanum || c = ' '

/-- Modelled from the spec: `voiceover_cli/utils.py` (imported as
`voiceover_cli.utils`) is not under `src/`, so `utils.remove_special_characters`
is missing. Spec section 4.2 requires the sanitized text to have the reserved
player-name placeholder substituted by a generic addressable term and
special/control characters stripped before reaching the synthesis mechanism;
modelled here as the placeholder substitution followed by dropping every
character outside a kept alphabet of alphanumerics and spaces. -/
def remove_special_characters (s : List Char) : List Char :=
  (replacePlayerName s).filter keepChar

/-- `auto_generate_tourist_trap.py` line 163: `'quota_exceeded' in str(e)` —
substring sniffing on the exception message. -/
def isQuotaMsg (msg : String) : Bool := decide ("quota_exceeded".data <:+: msg.data)

/-! ## Backend generate models

State threaded through a backend call: the artifact directory contents, the
number of invocations of the underlying synthesis mechanism, and the texts
handed to it (in order). -/

structure BackendState where
  files : List String
  synthCalls : Nat
  synthTexts : List (List Char)
deriving DecidableEq

/-- Result of a backend `generate` call: the returned filename, or the message
of the exception it raises. -/
inductive GenResult where
  | ok (fileName : String)
  | error (msg : String)
deriving DecidableEq

/-- The content-addressed artifact name: `md5(f'{character}|{line}') + ".mp3"`.
The md5 digest (`hashlib` / `utils.str_to_md5`) is an opaque parameter. -/
def artifactName (md5 : String → String) (character line : String) : String :=
  md5 (character ++ "|" ++ line) ++ ".mp3"

/-- `KokoroSDK.generate` (`voiceover_cli/kokoro.py` lines 129-206).
Control flow of the source in order: compute the content-addressed file name;
return it at once if the file exists; otherwise clean the text, validate the
voice against the backend's voice set (raising `ValueError` before any
synthesis when it is unknown), run the pipeline (raising when it emits no
audio), post-process, export the file and return the name. `pipeline` is the
opaque Kokoro model: voice and text to the list of emitted audio segments. -/
def KokoroSDK_generate (md5 : String → String) (voices : List String)
    (pipeline : String → List Char → List (List ℚ))
    (st : BackendState) (character voice_id line : String) :
    BackendState × GenResult :=
  let file_name := artifactName md5 character line
  if file_name ∈ st.files then
    (st, .ok file_name)
  else
    let text := remove_special_characters (pyStrip line.data)
    if voice_id ∈ voices then
      let st' : BackendState :=
        { st with synthCalls := st.synthCalls + 1, synthTexts := st.synthTexts ++ [text] }
      if (pipeline voice_id text).isEmpty then
        (st', .error "No audio generated")
      else
        ({ st' with files := st'.files ++ [file_name] }, .ok file_name)
    else
      (st, .error "Voice not found")

/-- `KokoroTTS.generate` (`generate_kokoro.py` lines 198-246).
Same cache discipline as `KokoroSDK.generate` but no voice validation, and the
text cleaning is exactly `text.replace("[player name]", "adventurer")`. -/
def KokoroTTS_generate (md5 : String → String)
    (pipeline : String → List Char → List (List ℚ))
    (st : BackendState) (character voice_id text : String) :
    BackendState × GenResult :=
  let file_name := artifactName md5 character text
  if file_name ∈ st.files then
    (st, .ok file_name)
  else
    let clean_text := replacePlayerName text.data
    let st' : BackendState :=
      { st with synthCalls := st.synthCalls + 1, synthTexts := st.synthTexts ++ [clean_text] }
    if (pipeline voice_id clean_text).isEmpty then
      (st', .error "No audio generated")
    else
      ({ st' with files := st'.files ++ [file_name] }, .ok file_name)

/-- `ElevenlabsSDK.generate` (`voiceover_cli/elevenlabs.py` lines 24-65).
The `return file_name` statement sits inside the `if not os.path.exists(file_path)`
block; when the artifact already exists the function body falls through and
Python returns `None`, modelled as `none`. On a cache miss the sanitized text
is sent to the remote service, the audio is saved and the name returned. -/
def Elevenlabs_generate (md5 : String → String)
    (st : BackendState) (character _voice_id line : String)
    (_next_line _previous_line : Option String) :
    BackendState × Option String :=
  let file_name := artifactName md5 character line
  if file_name ∈ st.files then
    (st, none)
  else
    let st' : BackendState :=
      { st with synthCalls := st.synthCalls + 1,
                synthTexts := st.synthTexts ++ [remove_special_characters (pyStrip line.data)] }
    ({ st' with files := st'.files ++ [file_name] }, some file_name)

/-! ## Audio post-processing

Audio samples are embedded as exact rationals (the source works on numpy float
arrays; every operation below — comparisons against the threshold, division by
the peak, truncation toward zero — is arithmetic that the embedding performs
exactly). `ratAbs` mirrors `np.abs` on one sample. -/

/-- Absolute value of a sample, as computed by `np.abs`. -/
def ratAbs (q : ℚ) : ℚ := if q < 0 then -q else q

/-- `np.max(np.abs(audio))`: the peak absolute sample value. The source never
evaluates it on an empty array; the fold seeds with `0`, which is a lower bound
of every `ratAbs` value. -/
def maxAbs (a : List ℚ) : ℚ := a.foldl (fun m x => max m (ratAbs x)) 0

/-- `astype(np.int16)` on a value in 16-bit range: truncation toward zero,
which is what `Int` division of the numerator by the denominator computes. -/
def ratTrunc (q : ℚ) : Int := q.num / (q.den : Int)

/-- `KokoroSDK._strip_silence` (`voiceover_cli/kokoro.py` lines 110-127):
`non_silent = np.where(np.abs(audio) > threshold)[0]` is the sorted list of
indices whose sample exceeds the threshold in absolute value; if it is empty
the input is returned unchanged, otherwise the slice
`audio[max(0, first - pad) : min(len(audio), last + pad)]` is returned, where
`pad` is the `min_silence_duration` parameter (default 1000). -/
def KokoroSDK_strip_silence (threshold : ℚ) (min_silence_duration : Nat)
    (audio_data : List ℚ) : List ℚ :=
  let non_silent :=
    (List.range audio_data.length).filter (fun i => decide (threshold < ratAbs (audio_data.getD i 0)))
  match non_silent.head?, non_silent.getLast? with
  | some first, some last =>
    let start : Int := max 0 ((first : Int) - (min_silence_duration : Int))
    let stop : Int := min (audio_data.length : Int) ((last : Int) + (min_silence_duration : Int))
    (audio_data.drop start.toNat).take (stop - start).toNat
  | _, _ => audio_data

/-- `KokoroTTS._strip_silence` (`generate_kokoro.py` lines 188-196): the same
computation with the padding margin hard-coded to 1000. -/
def KokoroTTS_strip_silence (threshold : ℚ) (audio : List ℚ) : List ℚ :=
  let indices :=
    (List.range audio.length).filter (fun i => decide (threshold < ratAbs (audio.getD i 0)))
  match indices.head?, indices.getLast? with
  | some first, some last =>
    let start : Int := max 0 ((first : Int) - 1000)
    let stop : Int := min (audio.length : Int) ((last : Int) + 1000)
    (audio.drop start.toNat).take (stop - start).toNat
  | _, _ => audio

/-- Peak normalization followed by 16-bit quantization
(`voiceover_cli/kokoro.py` lines 187-192 and `generate_kokoro.py` lines 230-235):
`if np.max(np.abs(audio)) > 1.0: audio = audio / np.max(np.abs(audio))`, then
`(audio * 32767).astype(np.int16)`. -/
def normalizeQuantize (a : List ℚ) : List Int :=
  let peak := maxAbs a
  let a' := if 1 < peak then a.map (fun x => x / peak) else a
  a'.map (fun x => ratTrunc (x * 32767))

/-! ## Voice assignment (`generate_kokoro.py` lines 52-79) -/

/-- The feminine-coded voice pool (`generate_kokoro.py` lines 52-55). -/
def FEMALE_VOICES : List String :=
  ["af_bella", "af_jessica", "af_nicole", "af_sarah",
   "af_sky", "af_river", "af_heart", "af_nova"]

/-- The masculine-coded voice pool (`generate_kokoro.py` lines 57-60). -/
def MALE_VOICES : List String :=
  ["am_michael", "am_adam", "am_liam", "am_eric",
   "am_fenrir", "am_onyx", "am_puck", "am_echo"]

/-- `get_voice_for_character` (`generate_kokoro.py` lines 63-79). The Python
builtin `hash` is opaque and, for `str`, salted per process
(`PYTHONHASHSEED`); it is therefore a parameter: one `hash` function per
process run. Python's `%` on a positive modulus lands in `[0, len)`, so the
`Nat` remainder is an exact model of the index computation. -/
def get_voice_for_character (hash : String → Nat) (character : String)
    (gender : Option String) : String :=
  if gender = some "female" then
    FEMALE_VOICES.getD (hash character % FEMALE_VOICES.length) ""
  else
    MALE_VOICES.getD (hash character % MALE_VOICES.length) ""

/-! ## Result store -/

/-- A row of the `dialogs` FTS table (spec: ResultRecord). -/
structure ResultRecord where
  quest : String
  character : String
  text : String
  uri : String
deriving DecidableEq

/-- `dialog_exists` (`generate_kokoro.py` lines 154-161):
`SELECT 1 FROM dialogs WHERE character = ? AND text = ?` is non-empty. -/
def dialogExistsIn (db : List ResultRecord) (character text : String) : Bool :=
  db.any (fun r => r.character == character && r.text == text)

/-- `insert_dialog` (`generate_kokoro.py` lines 144-151): unconditional append. -/
def insert_dialog (db : List ResultRecord) (quest character text uri : String) :
    List ResultRecord :=
  db ++ [⟨quest, character, text, uri⟩]

/-- The incremental Kokoro write path (`generate_kokoro.py` lines 401-403):
`if not dialog_exists(conn, character, text): insert_dialog(...)`. -/
def kokoroDbWrite (db : List ResultRecord) (quest character text uri : String) :
    List ResultRecord :=
  if dialogExistsIn db character text then db
  else insert_dialog db quest character text uri

/-- Modelled from the spec: `voiceover_cli/database.py` (imported as
`voiceover_cli.database` by `auto_generate_tourist_trap.py`) is not under
`src/`, so `insert_quest_voiceover` is missing. Spec section 4.4 gives the
Result Store contract `recordIfAbsent(quest, character, text, audio_reference)`
with duplicate suppression through the `exists` check keyed on exact
(character, text) equality; modelled accordingly. -/
def insert_quest_voiceover (db : List ResultRecord) (quest character text uri : String) :
    List ResultRecord :=
  if dialogExistsIn db character text then db
  else db ++ [⟨quest, character, text, uri⟩]

/-- The store invariant of claim C7: no two rows share (character, text). -/
def NoDupPairs (db : List ResultRecord) : Prop :=
  List.Pairwise (fun a b => ¬(a.character = b.character ∧ a.text = b.text)) db

/-! ## Orchestrator: `auto_generate_tourist_trap.py` `main` (lines 127-183)

The transcript is a list of (character, text) pairs. `sdk.generate` is opaque:
`backend character voice_id text next_line previous_line` yields either the
returned filename or the message of the exception it raises. The loop state
records `generated_data`, the skip counter, the 1-based line numbers printed in
error messages, the `--start-line` value printed on a quota halt, and the
argument tuples passed to `sdk.generate` (in call order). -/

/-- Outcome of one `sdk.generate` / `tts.generate` call as seen by the loop. -/
inductive SynthOutcome where
  | success (fileName : String)
  | failure (msg : String)
deriving DecidableEq

structure AGState where
  records : List ResultRecord
  skipped : Nat
  errorLogs : List Nat
  resumeReport : Option Nat
  synthCalls : List (String × String × String × Option String × Option String)
deriving DecidableEq

/-- One pass over the sliced dialogue list. `i` is the absolute line index
(`actual_idx = idx + args.start_line`); `prevText` carries
`dialogue_lines[idx-1][1] if idx > 0 else None` of the sliced list, and
`rest.head?` supplies `dialogue_lines[idx+1][1] if idx < len - 1 else None`.
On `'quota_exceeded' in str(e)` the loop breaks after printing the resume
offset `actual_idx`; any other exception is logged and the loop continues. -/
def agGo (quest : String) (voiceMap : String → Option String)
    (backend : String → String → String → Option String → Option String → SynthOutcome) :
    Option String → Nat → List (String × String) → AGState → AGState
  | _, _, [], st => st
  | prevText, i, (character, text) :: rest, st =>
    match voiceMap character with
    | none =>
      agGo quest voiceMap backend (some text) (i + 1) rest
        { st with skipped := st.skipped + 1 }
    | some voice_id =>
      let next_line := rest.head?.map (·.2)
      let st' : AGState :=
        { st with synthCalls := st.synthCalls ++ [(character, voice_id, text, next_line, prevText)] }
      match backend character voice_id text next_line prevText with
      | .success file_name =>
        agGo quest voiceMap backend (some text) (i + 1) rest
          { st' with records := st'.records ++ [⟨quest, character, text, file_name⟩] }
      | .failure msg =>
        let st'' : AGState := { st' with errorLogs := st'.errorLogs ++ [i + 1] }
        if isQuotaMsg msg then
          { st'' with resumeReport := some i }
        else
          agGo quest voiceMap backend (some text) (i + 1) rest st''

/-- `auto_generate_tourist_trap.main`: slice the transcript at the start
offset, then run the loop from that absolute index. -/
def agRun (quest : String) (voiceMap : String → Option String)
    (backend : String → String → String → Option String → Option String → SynthOutcome)
    (startLine : Nat) (allLines : List (String × String)) : AGState :=
  agGo quest voiceMap backend none startLine (allLines.drop startLine)
    ⟨[], 0, [], none, []⟩

/-- The `previous_line` argument the loop passes for absolute line `j` of a run
started at `startLine`: `None` for the first line of the sliced list, the text
of the preceding original line otherwise. -/
def prevCtx (allLines : List (String × String)) (startLine j : Nat) : Option String :=
  if j = startLine then none else (allLines[j-1]?).map (·.2)

/-- The `next_line` argument the loop passes for absolute line `j`: the text of
line `j+1` when it exists. -/
def nextCtx (allLines : List (String × String)) (j : Nat) : Option String :=
  (allLines[j+1]?).map (·.2)

/-- The outcome of the `sdk.generate` call for absolute line `j` of a run
started at `startLine`: `none` when the line is out of range or its character
has no assigned voice (no call happens). -/
def lineOutcome (voiceMap : String → Option String)
    (backend : String → String → String → Option String → Option String → SynthOutcome)
    (startLine : Nat) (allLines : List (String × String)) (j : Nat) : Option SynthOutcome :=
  (allLines[j]?).bind (fun ct =>
    (voiceMap ct.1).map (fun v =>
      backend ct.1 v ct.2 (nextCtx allLines j) (prevCtx allLines startLine j)))

/-- Whether the call for line `j` raised an exception whose message contains
`'quota_exceeded'`. -/
def isQuotaHalt : Option SynthOutcome → Bool
  | some (.failure msg) => isQuotaMsg msg
  | _ => false

/-- The records a run started at `startLine` accumulates for the absolute
index window `[lo, lo + n)`: one record per line whose character has a voice
and whose call succeeds. -/
def expectedRecords (quest : String) (voiceMap : String → Option String)
    (backend : String → String → String → Option String → Option String → SynthOutcome)
    (startLine : Nat) (allLines : List (String × String)) (lo n : Nat) : List ResultRecord :=
  (List.range' lo n).filterMap (fun j =>
    match allLines[j]?, lineOutcome voiceMap backend startLine allLines j with
    | some (c, t), some (.success f) => some ⟨quest, c, t, f⟩
    | _, _ => none)

/-! ## Orchestrator: `generate_kokoro.py` `main` (lines 380-412)

State: the database rows, the three counters of the run summary, the 0-based
numbers printed by `Error on line ...` (`args.start_line + idx`), and the
(character, voice, text) tuples passed to `tts.generate`. -/

structure KGState where
  db : List ResultRecord
  generated : Nat
  skipped : Nat
  errors : Nat
  errorLogs : List Nat
  synthCalls : List (String × String × String)
deriving DecidableEq

/-- One pass over the sliced transcript; `i` is the absolute line index
(`args.start_line + idx`, the number the error branch prints). -/
def kgGo (questName : String) (voiceAssignments : String → Option String)
    (backend : String → String → String → SynthOutcome) :
    Nat → List (String × String) → KGState → KGState
  | _, [], st => st
  | i, (character, text) :: rest, st =>
    match voiceAssignments character with
    | none =>
      kgGo questName voiceAssignments backend (i + 1) rest
        { st with skipped := st.skipped + 1 }
    | some voice_id =>
      let st' : KGState :=
        { st with synthCalls := st.synthCalls ++ [(character, voice_id, text)] }
      match backend character voice_id text with
      | .success file_name =>
        kgGo questName voiceAssignments backend (i + 1) rest
          { st' with db := kokoroDbWrite st'.db questName character text file_name,
                     generated := st'.generated + 1 }
      | .failure _ =>
        kgGo questName voiceAssignments backend (i + 1) rest
          { st' with errors := st'.errors + 1, errorLogs := st'.errorLogs ++ [i] }

/-- `generate_kokoro.main`: slice the transcript at the start offset and run
the loop from that absolute index with fresh counters and an initial database
(the sqlite file may pre-exist, hence the `db0` parameter). -/
def kgRun (questName : String) (voiceAssignments : String → Option String)
    (backend : String → String → String → SynthOutcome)
    (db0 : List ResultRecord) (startLine : Nat) (allLines : List (String × String)) : KGState :=
  kgGo questName voiceAssignments backend startLine (allLines.drop startLine)
    ⟨db0, 0, 0, 0, [], []⟩

/-! ## Small list helpers -/

theorem nilIsPre (l : List Char) : [] <+: l := ⟨l, rfl⟩

theorem head?_drop_eq {α : Type} (l : List α) (n : Nat) : (l.drop n).head? = l[n]? := by
  rw [List.head?_eq_getElem?, List.getElem?_drop]
  simp

theorem filterMap_cons_toList {α β : Type} (f : α → Option β) (a : α) (l : List α) :
    List.filterMap f (a :: l) = (f a).toList ++ List.filterMap f l := by
  cases h : f a <;> simp [List.filterMap_cons, h]

/-! ## Claim C10 -/

/-- C10: on a cache hit — the artifact file for `md5(character + "|" + line)`
already present in the output directory — `KokoroSDK.generate` returns the
filename at once for every `voice_id` (a member of the voice set or not) and
raises no error: the state is untouched, so no sanitization, no voice
validation and no synthesis happen. -/
theorem kokoro_cache_hit_bypasses_validation
    (md5 : String → String) (voices : List String)
    (pipeline : String → List Char → List (List ℚ))
    (st : BackendState) (character voice_id line : String)
    (h : artifactName md5 character line ∈ st.files) :
    KokoroSDK_generate md5 voices pipeline st character voice_id line
      = (st, .ok (artifactName md5 character line)) := by
  simp [KokoroSDK_generate, h]

/-- Witness for C10: the artifact for ("Guard", "Halt!") is on disk and the
supplied voice `"not_a_voice"` is not in the voice set, yet `generate` returns
the cached reference with the state unchanged. -/
theorem kokoro_cache_hit_bypasses_validation_witness :
    artifactName id "Guard" "Halt!" ∈ (["Guard|Halt!.mp3"] : List String) ∧
    KokoroSDK_generate id ["af_heart"] (fun _ _ => []) ⟨["Guard|Halt!.mp3"], 0, []⟩
        "Guard" "not_a_voice" "Halt!"
      = (⟨["Guard|Halt!.mp3"], 0, []⟩, .ok (artifactName id "Guard" "Halt!")) :=
  ⟨by decide,
   kokoro_cache_hit_bypasses_validation id ["af_heart"] (fun _ _ => [])
     ⟨["Guard|Halt!.mp3"], 0, []⟩ "Guard" "not_a_voice" "Halt!" (by decide)⟩

/-! ## Claim C3 -/

theorem agGo_quota_aux (quest : String) (vm : String → Option String)
    (backend : String → String → String → Option String → Option String → SynthOutcome)
    (startLine k : Nat) (allLines : List (String × String))
    (hq : isQuotaHalt (lineOutcome vm backend startLine allLines k) = true)
    (hbefore : ∀ j, j < k → startLine ≤ j →
      isQuotaHalt (lineOutcome vm backend startLine allLines j) = false)
    (hkl : k < allLines.length) :
    ∀ (rest : List (String × String)) (i : Nat) (st : AGState),
      rest = allLines.drop i → startLine ≤ i → i ≤ k →
      (agGo quest vm backend (prevCtx allLines startLine i) i rest st).resumeReport = some k ∧
      (agGo quest vm backend (prevCtx allLines startLine i) i rest st).records
        = st.records ++ expectedRecords quest vm backend startLine allLines i (k - i) := by
  intro rest
  induction rest with
  | nil =>
    intro i st hrest hsi hik
    exfalso
    have : allLines.length ≤ i := List.drop_eq_nil_iff_le.mp hrest.symm
    omega
  | cons hd tl ih =>
    intro i st hrest hsi hik
    obtain ⟨character, text⟩ := hd
    have hAi : allLines[i]? = some (character, text) := by
      have h := head?_drop_eq allLines i
      rw [← hrest] at h
      simpa using h.symm
    have htl : tl = allLines.drop (i + 1) := by
      have h := List.tail_drop allLines i
      rw [← hrest] at h
      simpa using h
    have hnext : tl.head?.map (·.2) = nextCtx allLines i := by
      rw [htl, head?_drop_eq]
      rfl
    have hprev' : (some text : Option String) = prevCtx allLines startLine (i + 1) := by
      rw [prevCtx, if_neg (by omega), Nat.add_sub_cancel, hAi]
      rfl
    have hexp_cons : ∀ rec? : Option ResultRecord, i < k →
        (match allLines[i]?, lineOutcome vm backend startLine allLines i with
          | some (c, t), some (.success f) => some (⟨quest, c, t, f⟩ : ResultRecord)
          | _, _ => none) = rec? →
        expectedRecords quest vm backend startLine allLines i (k - i)
          = rec?.toList ++ expectedRecords quest vm backend startLine allLines (i + 1) (k - (i + 1)) := by
      intro rec? hik' hmatch
      have hsplit : k - i = (k - (i + 1)) + 1 := by omega
      rw [expectedRecords, hsplit, List.range'_succ, filterMap_cons_toList]
      subst hmatch
      rfl
    rcases hvm : vm character with _ | voice_id
    · -- skip branch: the character has no voice, lineOutcome i = none
      have hlo : lineOutcome vm backend startLine allLines i = none := by
        simp [lineOutcome, hAi, hvm]
      have hik' : i < k := by
        rcases Nat.lt_or_ge i k with h | h
        · exact h
        · exfalso
          have : i = k := by omega
          subst this
          rw [hlo] at hq
          simp [isQuotaHalt] at hq
      refine ⟨?_, ?_⟩
      · simp only [agGo, hvm]
        rw [hprev']
        exact (ih (i + 1) _ htl (by omega) (by omega)).1
      · rw [hexp_cons none hik' (by simp [hAi, hlo])]
        simp only [agGo, hvm]
        rw [hprev', (ih (i + 1) _ htl (by omega) (by omega)).2]
        simp
    · -- a voice is assigned: the generate call happens
      have hlo : lineOutcome vm backend startLine allLines i
          = some (backend character voice_id text (nextCtx allLines i)
              (prevCtx allLines startLine i)) := by
        simp [lineOutcome, hAi, hvm]
      rcases hbk : backend character voice_id text (nextCtx allLines i)
          (prevCtx allLines startLine i) with file_name | msg
      · -- success: a record is appended and the loop continues
        have hik' : i < k := by
          rcases Nat.lt_or_ge i k with h | h
          · exact h
          · exfalso
            have : i = k := by omega
            subst this
            rw [hlo, hbk] at hq
            simp [isQuotaHalt] at hq
        have hbk' : backend character voice_id text (tl.head?.map (·.2))
            (prevCtx allLines startLine i) = .success file_name := by
          rw [hnext]; exact hbk
        refine ⟨?_, ?_⟩
        · simp only [agGo, hvm, hbk']
          rw [hprev']
          exact (ih (i + 1) _ htl (by omega) (by omega)).1
        · rw [hexp_cons (some ⟨quest, character, text, file_name⟩) hik' (by simp [hAi, hlo, hbk])]
          simp only [agGo, hvm, hbk']
          rw [hprev', (ih (i + 1) _ htl (by omega) (by omega)).2]
          simp
      · -- failure: quota or per-line error
        rcases hqm : isQuotaMsg msg with _ | _
        · -- not a quota message: log and continue
          have hik' : i < k := by
            rcases Nat.lt_or_ge i k with h | h
            · exact h
            · exfalso
              have : i = k := by omega
              subst this
              rw [hlo, hbk] at hq
              simp [isQuotaHalt, hqm] at hq
          have hbk' : backend character voice_id text (tl.head?.map (·.2))
              (prevCtx allLines startLine i) = .failure msg := by
            rw [hnext]; exact hbk
          refine ⟨?_, ?_⟩
          · simp only [agGo, hvm, hbk', hqm, Bool.false_eq_true, if_false]
            rw [hprev']
            exact (ih (i + 1) _ htl (by omega) (by omega)).1
          · rw [hexp_cons none hik' (by simp [hAi, hlo, hbk])]
            simp only [agGo, hvm, hbk', hqm, Bool.false_eq_true, if_false]
            rw [hprev', (ih (i + 1) _ htl (by omega) (by omega)).2]
            simp
        · -- the quota message: the loop halts here, so i = k
          have hqi : isQuotaHalt (lineOutcome vm backend startLine allLines i) = true := by
            rw [hlo, hbk]
            simpa [isQuotaHalt] using hqm
          have hik' : i = k := by
            by_contra hne
            have : i < k := by omega
            rw [hbefore i this hsi] at hqi
            exact Bool.false_ne_true hqi
          subst hik'
          have hbk' : backend character voice_id text (tl.head?.map (·.2))
              (prevCtx allLines startLine i) = .failure msg := by
            rw [hnext]; exact hbk
          refine ⟨?_, ?_⟩
          · simp [agGo, hvm, hbk', hqm]
          · simp [agGo, hvm, hbk', hqm, expectedRecords]
/-- C3: when the backend call for the line with absolute index `k` raises a
quota-exceeded condition and no earlier processed line of the run did, the
loop stops there: the printed resume argument is exactly `k` (so a rerun with
start offset `k` retries that line), and the records handed to the store are
exactly those of the successfully processed lines with absolute index in
`[startLine, k)` — skipped and errored lines contribute none. -/
theorem agRun_quota_halt (quest : String) (vm : String → Option String)
    (backend : String → String → String → Option String → Option String → SynthOutcome)
    (startLine k : Nat) (allLines : List (String × String))
    (hsk : startLine ≤ k) (hkl : k < allLines.length)
    (hq : isQuotaHalt (lineOutcome vm backend startLine allLines k) = true)
    (hbefore : ∀ j, j < k → startLine ≤ j →
      isQuotaHalt (lineOutcome vm backend startLine allLines j) = false) :
    (agRun quest vm backend startLine allLines).resumeReport = some k ∧
    (agRun quest vm backend startLine allLines).records
      = expectedRecords quest vm backend startLine allLines startLine (k - startLine) := by
  have h := agGo_quota_aux quest vm backend startLine k allLines hq hbefore hkl
    (allLines.drop startLine) startLine ⟨[], 0, [], none, []⟩ rfl le_rfl hsk
  rw [agRun, show (none : Option String) = prevCtx allLines startLine startLine
    from by rw [prevCtx, if_pos rfl]]
  simpa using h

/-- Witness for C3: a three-line transcript where line 0 succeeds, line 1 is
skipped (no voice for "Bedabin"), and line 2 raises the quota error; the run
reports resume offset 2 and records only line 0. -/
theorem agRun_quota_halt_witness :
    (agRun "Q" (fun c => if c = "Bedabin" then none else some "v1")
        (fun _ _ t _ _ => if t = "t2" then .failure "quota_exceeded: out of credits"
                          else .success "f0.mp3")
        0 [("Guard", "t0"), ("Bedabin", "t1"), ("Guard", "t2")]).resumeReport = some 2 ∧
    (agRun "Q" (fun c => if c = "Bedabin" then none else some "v1")
        (fun _ _ t _ _ => if t = "t2" then .failure "quota_exceeded: out of credits"
                          else .success "f0.mp3")
        0 [("Guard", "t0"), ("Bedabin", "t1"), ("Guard", "t2")]).records
      = expectedRecords "Q" (fun c => if c = "Bedabin" then none else some "v1")
          (fun _ _ t _ _ => if t = "t2" then .failure "quota_exceeded: out of credits"
                            else .success "f0.mp3")
          0 [("Guard", "t0"), ("Bedabin", "t1"), ("Guard", "t2")] 0 (2 - 0) :=
  agRun_quota_halt "Q" (fun c => if c = "Bedabin" then none else some "v1")
    (fun _ _ t _ _ => if t = "t2" then .failure "quota_exceeded: out of credits"
                      else .success "f0.mp3")
    0 2 [("Guard", "t0"), ("Bedabin", "t1"), ("Guard", "t2")]
    (by decide) (by decide) (by decide) (by decide)

/-! ## Claim C4 -/

/-- C4: `get_voice_for_character` indexes the gender pool with
`hash(character) % len(pool)`, but Python's builtin `hash` on `str` is salted
per process. Two runs whose salted hashes of "Irena" differ modulo the pool
size assign different voices, refuting the cross-run determinism the claim
(and the function's own docstring) states; the two `hash` parameters below
stand for two such process runs. -/
theorem voice_hash_process_dependent_eval :
    get_voice_for_character (fun _ => 0) "Irena" none = "am_michael" ∧
    get_voice_for_character (fun _ => 1) "Irena" none = "am_adam" ∧
    get_voice_for_character (fun _ => 0) "Irena" (some "female") = "af_bella" ∧
    get_voice_for_character (fun _ => 1) "Irena" (some "female") = "af_jessica" ∧
    ("am_michael" : String) ≠ "am_adam" := by
  decide

/-! ## Claim C1 -/

/-- C1: evaluation of the three backends on a repeated (character, text) pair.
Both Kokoro backends return the same reference on the second call (here with a
different, even unknown, voice) without a second synthesis; but
`ElevenlabsSDK.generate` falls through its `if not os.path.exists` block on the
cache hit and returns `None` instead of the reference, refuting the claim for
the ElevenLabs backend. -/
theorem elevenlabs_cache_hit_returns_none_eval :
    KokoroSDK_generate id ["v1"] (fun _ _ => [[1]]) ⟨[], 0, []⟩ "Guard" "v1" "Halt!"
      = (⟨["Guard|Halt!.mp3"], 1, [remove_special_characters (pyStrip "Halt!".data)]⟩,
         .ok "Guard|Halt!.mp3") ∧
    KokoroSDK_generate id ["v1"] (fun _ _ => [[1]])
        ⟨["Guard|Halt!.mp3"], 1, [remove_special_characters (pyStrip "Halt!".data)]⟩
        "Guard" "v2" "Halt!"
      = (⟨["Guard|Halt!.mp3"], 1, [remove_special_characters (pyStrip "Halt!".data)]⟩,
         .ok "Guard|Halt!.mp3") ∧
    KokoroTTS_generate id (fun _ _ => [[1]]) ⟨[], 0, []⟩ "Guard" "v1" "Halt!"
      = (⟨["Guard|Halt!.mp3"], 1, [replacePlayerName "Halt!".data]⟩, .ok "Guard|Halt!.mp3") ∧
    KokoroTTS_generate id (fun _ _ => [[1]])
        ⟨["Guard|Halt!.mp3"], 1, [replacePlayerName "Halt!".data]⟩ "Guard" "v2" "Halt!"
      = (⟨["Guard|Halt!.mp3"], 1, [replacePlayerName "Halt!".data]⟩, .ok "Guard|Halt!.mp3") ∧
    Elevenlabs_generate id ⟨[], 0, []⟩ "Guard" "v1" "Halt!" none none
      = (⟨["Guard|Halt!.mp3"], 1, [remove_special_characters (pyStrip "Halt!".data)]⟩,
         some "Guard|Halt!.mp3") ∧
    Elevenlabs_generate id
        ⟨["Guard|Halt!.mp3"], 1, [remove_special_characters (pyStrip "Halt!".data)]⟩
        "Guard" "v2" "Halt!" none none
      = (⟨["Guard|Halt!.mp3"], 1, [remove_special_characters (pyStrip "Halt!".data)]⟩,
         none) ∧
    (none : Option String) ≠ some "Guard|Halt!.mp3" := by
  refine ⟨rfl, rfl, rfl, rfl, rfl, rfl, by decide⟩

/-! ## Claim C2 -/

/-- C2: evaluation of the context arguments. On the transcript A, B, C with
every line voiced, the full run passes `previous_line = some "A"` for absolute
line 1, but the run resumed at offset 1 passes `previous_line = none` for that
same line, because the loop slices the list first and indexes the truncated
list; this refutes the claimed context fidelity at the first resumed line. -/
theorem resume_context_divergence_eval :
    (agRun "Q" (fun c => if c = "Guard" then some "v1" else none)
        (fun _ _ _ _ _ => .success "f.mp3") 1
        [("Guard", "A"), ("Guard", "B"), ("Guard", "C")]).synthCalls
      = [("Guard", "v1", "B", some "C", none),
         ("Guard", "v1", "C", none, some "B")] ∧
    (agRun "Q" (fun c => if c = "Guard" then some "v1" else none)
        (fun _ _ _ _ _ => .success "f.mp3") 0
        [("Guard", "A"), ("Guard", "B"), ("Guard", "C")]).synthCalls
      = [("Guard", "v1", "A", some "B", none),
         ("Guard", "v1", "B", some "C", some "A"),
         ("Guard", "v1", "C", none, some "B")] ∧
    (none : Option String) ≠ some "A" := by
  refine ⟨by decide, by decide, by decide⟩

/-! ## Claim C8

The sanitized text never contains the placeholder token. For the pure
`replace` (KokoroTTS) this needs an argument about re-introduction: the
replacement term contains no `'['`, the pattern starts with `'['` and is the
only position where `'['` occurs in it, and no nonempty proper suffix of the
pattern is a prefix of the replacement, so occurrences can neither survive the
scan nor straddle a replacement boundary. -/

theorem prefixOfIff : ∀ (l₁ l₂ : List Char), l₁.isPrefixOf l₂ = true ↔ l₁ <+: l₂ := by
  intro l₁
  induction l₁ with
  | nil =>
    intro l₂
    simp [List.isPrefixOf]
  | cons a as ih =>
    intro l₂
    cases l₂ with
    | nil => simp [List.isPrefixOf]
    | cons b bs =>
      simp [List.isPrefixOf, List.cons_prefix_cons, ih bs, Bool.and_eq_true, beq_iff_eq]

theorem prefixTakeAppend {α : Type} (q y x : List α) (h : q <+: y ++ x) :
    q.take y.length <+: y := by
  obtain ⟨t, ht⟩ := h
  have h1 : (q ++ t).take y.length = y := by rw [ht, List.take_left]
  have h2 : q.take y.length <+: (q ++ t).take y.length := by
    rw [List.take_append_eq_append_take]
    exact ⟨_, rfl⟩
  rw [h1] at h2
  exact h2

/-- A nonempty proper suffix of the pattern that is a prefix of the scan's
output was already a prefix of the scan's input: the replacement term cannot
supply any of its characters. -/
theorem replacePlayerName_drop_transfer :
    ∀ s : List Char, ∀ j : Nat, 1 ≤ j →
      playerNamePat.drop j <+: replacePlayerName s → playerNamePat.drop j <+: s := by
  intro s
  induction s using replacePlayerName.induct with
  | case1 =>
    intro j hj h
    simpa [replacePlayerName] using h
  | case2 c cs hpre ih =>
    intro j hj h
    rw [replacePlayerName, if_pos hpre] at h
    by_cases hj13 : 13 ≤ j
    · have hdj : playerNamePat.drop j = [] :=
        List.drop_eq_nil_of_le (by rw [show playerNamePat.length = 13 from rfl]; omega)
      rw [hdj]
      exact nilIsPre _
    · push_neg at hj13
      exfalso
      have htk := prefixTakeAppend _ _ _ h
      interval_cases j <;> exact absurd htk (by decide)
  | case3 c cs hnpre ih =>
    intro j hj h
    rw [replacePlayerName, if_neg hnpre] at h
    by_cases hj13 : 13 ≤ j
    · have hdj : playerNamePat.drop j = [] :=
        List.drop_eq_nil_of_le (by rw [show playerNamePat.length = 13 from rfl]; omega)
      rw [hdj]
      exact nilIsPre _
    · push_neg at hj13
      have hlt : j < playerNamePat.length := by
        rw [show playerNamePat.length = 13 from rfl]
        omega
      rw [List.drop_eq_getElem_cons hlt] at h ⊢
      rw [List.cons_prefix_cons] at h ⊢
      obtain ⟨hc, htail⟩ := h
      exact ⟨hc, ih (j + 1) (by omega) htail⟩

/-- An occurrence of the pattern inside `y ++ x` with no `'['` in `y` lies
inside `x`. -/
theorem infixAppendNoBracket :
    ∀ y x : List Char, (∀ c ∈ y, c ≠ '[') → playerNamePat <:+: y ++ x →
      playerNamePat <:+: x := by
  intro y
  induction y with
  | nil =>
    intro x _ h
    simpa using h
  | cons d ds ih =>
    intro x hno h
    rw [List.cons_append, List.infix_cons_iff] at h
    rcases h with hpre | hinf
    · exfalso
      have hd : '[' = d := by
        rw [show playerNamePat = '[' :: "player name]".data from rfl,
          List.cons_prefix_cons] at hpre
        exact hpre.1
      exact hno d (List.mem_cons_self d ds) hd.symm
    · exact ih x (fun c hc => hno c (List.mem_cons_of_mem d hc)) hinf

/-- The output of the `replace` scan never contains the placeholder token. -/
theorem replacePlayerName_no_pattern :
    ∀ s : List Char, ¬ playerNamePat <:+: replacePlayerName s := by
  intro s
  induction s using replacePlayerName.induct with
  | case1 =>
    intro h
    rw [replacePlayerName, List.infix_nil] at h
    exact absurd h (by decide)
  | case2 c cs hpre ih =>
    intro h
    rw [replacePlayerName, if_pos hpre] at h
    exact ih (infixAppendNoBracket _ _ (by decide) h)
  | case3 c cs hnpre ih =>
    intro h
    rw [replacePlayerName, if_neg hnpre] at h
    rw [List.infix_cons_iff] at h
    rcases h with hpre2 | hinf
    · rw [show playerNamePat = '[' :: "player name]".data from rfl,
        List.cons_prefix_cons] at hpre2
      obtain ⟨hc, htail⟩ := hpre2
      have htail' : playerNamePat.drop 1 <+: replacePlayerName cs := htail
      have h4 := replacePlayerName_drop_transfer cs 1 le_rfl htail'
      apply hnpre
      rw [prefixOfIff, show playerNamePat = '[' :: "player name]".data from rfl,
        List.cons_prefix_cons]
      exact ⟨hc, h4⟩
    · exact ih hinf

/-- A list filtered through `keepChar` contains no `'['`, hence no occurrence
of the placeholder token. -/
theorem filter_keep_no_pattern (s : List Char) :
    ¬ playerNamePat <:+: s.filter keepChar := by
  intro h
  obtain ⟨u, v, huv⟩ := h
  have hbr : '[' ∈ s.filter keepChar := by
    rw [← huv]
    apply List.mem_append.mpr
    apply Or.inl
    apply List.mem_append.mpr
    apply Or.inr
    decide
  have hk := List.of_mem_filter hbr
  exact absurd hk (by decide)

theorem remove_special_no_pattern (s : List Char) :
    ¬ playerNamePat <:+: remove_special_characters s :=
  filter_keep_no_pattern (replacePlayerName s)

/-- C8: any text a Kokoro backend call hands to the underlying synthesis
mechanism (beyond what was already in the trace) is exactly the sanitized
input — `text.replace("[player name]", "adventurer")` for `KokoroTTS.generate`,
`remove_special_characters(line.strip())` for `KokoroSDK.generate` — and
contains no occurrence of the placeholder token. -/
theorem sanitization_no_placeholder
    (md5 : String → String) (voices : List String)
    (pipeline : String → List Char → List (List ℚ))
    (st1 st2 : BackendState) (character1 character2 voice1 voice2 text line : String) :
    (∀ x ∈ (KokoroTTS_generate md5 pipeline st1 character1 voice1 text).1.synthTexts,
        x ∈ st1.synthTexts ∨ (x = replacePlayerName text.data ∧ ¬ playerNamePat <:+: x)) ∧
    (∀ x ∈ (KokoroSDK_generate md5 voices pipeline st2 character2 voice2 line).1.synthTexts,
        x ∈ st2.synthTexts ∨
          (x = remove_special_characters (pyStrip line.data) ∧ ¬ playerNamePat <:+: x)) := by
  constructor
  · intro x hx
    simp only [KokoroTTS_generate] at hx
    split at hx
    · exact Or.inl hx
    · split at hx <;>
      · simp only [List.mem_append, List.mem_singleton] at hx
        rcases hx with h1 | h2
        · exact Or.inl h1
        · subst h2
          exact Or.inr ⟨rfl, replacePlayerName_no_pattern _⟩
  · intro x hx
    simp only [KokoroSDK_generate] at hx
    split at hx
    · exact Or.inl hx
    · split at hx
      · split at hx <;>
        · simp only [List.mem_append, List.mem_singleton] at hx
          rcases hx with h1 | h2
          · exact Or.inl h1
          · subst h2
            exact Or.inr ⟨rfl, remove_special_no_pattern _⟩
      · exact Or.inl hx

/-- Witness for C8: a concrete call on a line containing the placeholder; the
text handed to the pipeline is the sanitized one and carries no placeholder. -/
theorem sanitization_no_placeholder_witness :
    replacePlayerName "Hi [player name]!".data
      ∈ (KokoroTTS_generate id (fun _ _ => [[1]]) ⟨[], 0, []⟩
          "Guard" "v" "Hi [player name]!").1.synthTexts ∧
    (replacePlayerName "Hi [player name]!".data ∈ ([] : List (List Char)) ∨
      (replacePlayerName "Hi [player name]!".data = replacePlayerName "Hi [player name]!".data ∧
        ¬ playerNamePat <:+: replacePlayerName "Hi [player name]!".data)) :=
  have hmem : replacePlayerName "Hi [player name]!".data
      ∈ (KokoroTTS_generate id (fun _ _ => [[1]]) ⟨[], 0, []⟩
          "Guard" "v" "Hi [player name]!").1.synthTexts := by
    simp [KokoroTTS_generate, artifactName]
  ⟨hmem,
   (sanitization_no_placeholder id [] (fun _ _ => [[1]]) ⟨[], 0, []⟩ ⟨[], 0, []⟩
      "Guard" "G2" "v" "v2" "Hi [player name]!" "L").1 _ hmem⟩

/-! ## Claim C5 -/

/-- C5: in both orchestrator loops, a line whose character has no entry in the
voice assignment increments the skip counter by one and nothing else: error
counter, records/database, error log and the synthesis-call trace are
untouched, and the loop continues with the next line. -/
theorem skip_accounting_step
    (quest questName : String) (vm va : String → Option String)
    (backend : String → String → String → Option String → Option String → SynthOutcome)
    (backendK : String → String → String → SynthOutcome)
    (prevText : Option String) (i j : Nat) (character text : String)
    (rest restK : List (String × String)) (st : AGState) (stK : KGState)
    (h1 : vm character = none) (h2 : va character = none) :
    agGo quest vm backend prevText i ((character, text) :: rest) st
      = agGo quest vm backend (some text) (i + 1) rest
          { st with skipped := st.skipped + 1 } ∧
    kgGo questName va backendK j ((character, text) :: restK) stK
      = kgGo questName va backendK (j + 1) restK
          { stK with skipped := stK.skipped + 1 } := by
  constructor
  · simp [agGo, h1]
  · simp [kgGo, h2]

/-- Witness for C5: a concrete line for the unvoiced character "Bob" in each
loop. -/
theorem skip_accounting_step_witness :
    agGo "Q" (fun _ => none) (fun _ _ _ _ _ => .success "f") none 0
        [("Bob", "hi")] ⟨[], 0, [], none, []⟩
      = agGo "Q" (fun _ => none) (fun _ _ _ _ _ => .success "f") (some "hi") 1 []
          ⟨[], 1, [], none, []⟩ ∧
    kgGo "Q" (fun _ => none) (fun _ _ _ => .success "f") 0
        [("Bob", "hi")] ⟨[], 0, 0, 0, [], []⟩
      = kgGo "Q" (fun _ => none) (fun _ _ _ => .success "f") 1 []
          ⟨[], 0, 1, 0, [], []⟩ :=
  skip_accounting_step "Q" "Q" (fun _ => none) (fun _ => none)
    (fun _ _ _ _ _ => .success "f") (fun _ _ _ => .success "f")
    none 0 0 "Bob" "hi" [] [] ⟨[], 0, [], none, []⟩ ⟨[], 0, 0, 0, [], []⟩ rfl rfl

/-! ## Claim C9 -/

theorem filter_range'_head (p : Nat → Bool) :
    ∀ n s m : Nat, s ≤ m → m < s + n → p m = true →
      (∀ j, s ≤ j → j < m → p j = false) →
      ((List.range' s n).filter p).head? = some m := by
  intro n
  induction n with
  | zero =>
    intro s m h1 h2 _ _
    omega
  | succ n ih =>
    intro s m h1 h2 hpm hbef
    rw [List.range'_succ]
    rcases Nat.eq_or_lt_of_le h1 with he | hlt
    · subst he
      rw [List.filter_cons_of_pos hpm]
      rfl
    · rw [List.filter_cons_of_neg (by simp [hbef s le_rfl hlt])]
      exact ih (s + 1) m (by omega) (by omega) hpm (fun j hj1 hj2 => hbef j (by omega) hj2)

theorem filter_range'_getLast (p : Nat → Bool) :
    ∀ n s m : Nat, s ≤ m → m < s + n → p m = true →
      (∀ j, m < j → j < s + n → p j = false) →
      ((List.range' s n).filter p).getLast? = some m := by
  intro n
  induction n with
  | zero =>
    intro s m h1 h2 _ _
    omega
  | succ n ih =>
    intro s m h1 h2 hpm haft
    rw [List.range'_succ]
    rcases Nat.eq_or_lt_of_le h1 with he | hlt
    · subst he
      have htail : (List.range' (s + 1) n).filter p = [] := by
        rw [List.filter_eq_nil_iff]
        intro a ha
        rw [List.mem_range'_1] at ha
        simp [haft a (by omega) (by omega)]
      rw [List.filter_cons_of_pos hpm, htail]
      rfl
    · have hrec := ih (s + 1) m (by omega) (by omega) hpm
        (fun j hj1 hj2 => haft j hj1 (by omega))
      cases hps : p s with
      | true =>
        rw [List.filter_cons_of_pos hps,
          show (s :: (List.range' (s + 1) n).filter p)
            = [s] ++ (List.range' (s + 1) n).filter p from rfl,
          List.getLast?_append, hrec]
        rfl
      | false =>
        rw [List.filter_cons_of_neg (by simp [hps])]
        exact hrec

theorem tts_strip_eq_sdk (t : ℚ) (a : List ℚ) :
    KokoroTTS_strip_silence t a = KokoroSDK_strip_silence t 1000 a := rfl

/-- C9: `_strip_silence` of both backends returns the input unchanged when no
sample exceeds the threshold in absolute value, and otherwise the slice
`audio[max(0, first - pad) : min(len, last + pad)]` where `first`/`last` are
the first/last indices whose sample exceeds the threshold (`pad` is 1000 in
`KokoroTTS._strip_silence` and the `min_silence_duration` parameter in
`KokoroSDK._strip_silence`); afterwards the audio is divided by its peak
absolute value exactly when that peak exceeds 1, then quantized by `* 32767`
with truncation toward zero. -/
theorem strip_silence_normalize_spec (t : ℚ) (pad : Nat) (a : List ℚ) (iF iL : Nat) :
    ((∀ i, i < a.length → ¬ t < ratAbs (a.getD i 0)) →
      KokoroSDK_strip_silence t pad a = a ∧ KokoroTTS_strip_silence t a = a) ∧
    (iF < a.length → t < ratAbs (a.getD iF 0) →
      (∀ j, j < iF → ¬ t < ratAbs (a.getD j 0)) →
      iL < a.length → t < ratAbs (a.getD iL 0) →
      (∀ j, iL < j → j < a.length → ¬ t < ratAbs (a.getD j 0)) →
      KokoroSDK_strip_silence t pad a =
        (a.drop (max 0 ((iF : Int) - (pad : Int))).toNat).take
          (min (a.length : Int) ((iL : Int) + (pad : Int))
            - max 0 ((iF : Int) - (pad : Int))).toNat ∧
      KokoroTTS_strip_silence t a =
        (a.drop (max 0 ((iF : Int) - (1000 : Int))).toNat).take
          (min (a.length : Int) ((iL : Int) + (1000 : Int))
            - max 0 ((iF : Int) - (1000 : Int))).toNat) ∧
    normalizeQuantize a = a.map (fun x => ratTrunc (x * 32767 / max 1 (maxAbs a))) := by
  have hsdk : ∀ pd : Nat,
      (iF < a.length → t < ratAbs (a.getD iF 0) →
        (∀ j, j < iF → ¬ t < ratAbs (a.getD j 0)) →
        iL < a.length → t < ratAbs (a.getD iL 0) →
        (∀ j, iL < j → j < a.length → ¬ t < ratAbs (a.getD j 0)) →
        KokoroSDK_strip_silence t pd a =
          (a.drop (max 0 ((iF : Int) - (pd : Int))).toNat).take
            (min (a.length : Int) ((iL : Int) + (pd : Int))
              - max 0 ((iF : Int) - (pd : Int))).toNat) := by
    intro pd h1 h2 h3 h4 h5 h6
    have hhead : ((List.range a.length).filter
        (fun i => decide (t < ratAbs (a.getD i 0)))).head? = some iF := by
      rw [List.range_eq_range']
      exact filter_range'_head _ a.length 0 iF (by omega) (by omega) (decide_eq_true h2)
        (fun j _ hj2 => decide_eq_false (h3 j hj2))
    have hlast : ((List.range a.length).filter
        (fun i => decide (t < ratAbs (a.getD i 0)))).getLast? = some iL := by
      rw [List.range_eq_range']
      exact filter_range'_getLast _ a.length 0 iL (by omega) (by omega) (decide_eq_true h5)
        (fun j hj1 hj2 => decide_eq_false (h6 j hj1 (by omega)))
    simp only [KokoroSDK_strip_silence]
    rw [hhead, hlast]
  refine ⟨?_, ?_, ?_⟩
  · intro hall
    have hnil : (List.range a.length).filter
        (fun i => decide (t < ratAbs (a.getD i 0))) = [] := by
      rw [List.filter_eq_nil_iff]
      intro i hi
      rw [List.mem_range] at hi
      intro hdec
      exact hall i hi (of_decide_eq_true hdec)
    constructor
    · simp only [KokoroSDK_strip_silence]
      rw [hnil]
      rfl
    · simp only [KokoroTTS_strip_silence]
      rw [hnil]
      rfl
  · intro h1 h2 h3 h4 h5 h6
    refine ⟨hsdk pad h1 h2 h3 h4 h5 h6, ?_⟩
    rw [tts_strip_eq_sdk]
    exact hsdk 1000 h1 h2 h3 h4 h5 h6
  · by_cases hp : 1 < maxAbs a
    · simp only [normalizeQuantize, if_pos hp, List.map_map]
      congr 1
      funext x
      simp only [Function.comp]
      rw [max_eq_right hp.le, div_mul_eq_mul_div]
    · simp only [normalizeQuantize, if_neg hp]
      simp only [max_eq_left (not_lt.mp hp), div_one]

/-- Witness for C9: on `[0]` with threshold `1` nothing exceeds the threshold
and the audio is returned unchanged; on `[0, 2, 0]` with threshold `0` the
first and last index exceeding the threshold are both `1` and the slice
formula applies; the normalization equation holds on the same input. -/
theorem strip_silence_normalize_spec_witness :
    (∀ i, i < ([0] : List ℚ).length → ¬ (1 : ℚ) < ratAbs (([0] : List ℚ).getD i 0)) ∧
    (KokoroSDK_strip_silence 1 1000 [0] = [0] ∧ KokoroTTS_strip_silence 1 [0] = [0]) ∧
    (KokoroSDK_strip_silence 0 1 [0, 2, 0] =
        (([0, 2, 0] : List ℚ).drop (max 0 (((1 : Nat) : Int) - ((1 : Nat) : Int))).toNat).take
          (min ((([0, 2, 0] : List ℚ).length : Int)) (((1 : Nat) : Int) + ((1 : Nat) : Int))
            - max 0 (((1 : Nat) : Int) - ((1 : Nat) : Int))).toNat ∧
      KokoroTTS_strip_silence 0 [0, 2, 0] =
        (([0, 2, 0] : List ℚ).drop (max 0 (((1 : Nat) : Int) - (1000 : Int))).toNat).take
          (min ((([0, 2, 0] : List ℚ).length : Int)) (((1 : Nat) : Int) + (1000 : Int))
            - max 0 (((1 : Nat) : Int) - (1000 : Int))).toNat) ∧
    normalizeQuantize [0, 2, 0]
      = ([0, 2, 0] : List ℚ).map (fun x => ratTrunc (x * 32767 / max 1 (maxAbs [0, 2, 0]))) :=
  ⟨by decide,
   (strip_silence_normalize_spec 1 1000 [0] 0 0).1 (by decide),
   (strip_silence_normalize_spec 0 1 [0, 2, 0] 1 1).2.1 (by decide) (by decide)
     (by decide) (by decide) (by decide)
     (by intro j hj1 hj2; simp only [List.length_cons, List.length_nil] at hj2; interval_cases j <;> decide),
   (strip_silence_normalize_spec 0 1 [0, 2, 0] 1 1).2.2⟩

/-! ## Claim C6 -/

/-- C6 counterexample: `generate_kokoro.main` prints
`Error on line {args.start_line + idx}` — the 0-based absolute index. For a
failing first line of a run started at offset 0 the logged number is `0`,
not the 1-based `1` the claim states. -/
theorem kokoro_error_log_zero_based_cex :
    (kgRun "Q" (fun _ => some "v1") (fun _ _ _ => .failure "boom") [] 0
        [("Guard", "Hi")]).errorLogs = [0] ∧
    (kgRun "Q" (fun _ => some "v1") (fun _ _ _ => .failure "boom") [] 0
        [("Guard", "Hi")]).errors = 1 ∧
    ([0] : List Nat) ≠ [1] := by
  refine ⟨by decide, by decide, by decide⟩

/-- C6 amended: on a non-quota synthesis error both loops log the failure,
write no record, and continue with the next line (the error never escapes the
loop); `auto_generate_tourist_trap.main` logs the 1-based number `i + 1` and
maintains no error counter, while `generate_kokoro.main` increments its error
counter and logs the 0-based absolute index `start_line + idx`. -/
theorem per_line_error_handling_amended
    (quest questName : String) (vm va : String → Option String)
    (backend : String → String → String → Option String → Option String → SynthOutcome)
    (backendK : String → String → String → SynthOutcome)
    (prevText : Option String) (i j : Nat) (character text voice voiceK msg msgK : String)
    (rest restK : List (String × String)) (st : AGState) (stK : KGState)
    (h1 : vm character = some voice)
    (h2 : backend character voice text (rest.head?.map (·.2)) prevText = .failure msg)
    (h3 : isQuotaMsg msg = false)
    (h4 : va character = some voiceK)
    (h5 : backendK character voiceK text = .failure msgK) :
    agGo quest vm backend prevText i ((character, text) :: rest) st
      = agGo quest vm backend (some text) (i + 1) rest
          { st with
              synthCalls :=
                st.synthCalls ++ [(character, voice, text, rest.head?.map (·.2), prevText)],
              errorLogs := st.errorLogs ++ [i + 1] } ∧
    kgGo questName va backendK j ((character, text) :: restK) stK
      = kgGo questName va backendK (j + 1) restK
          { stK with
              synthCalls := stK.synthCalls ++ [(character, voiceK, text)],
              errors := stK.errors + 1,
              errorLogs := stK.errorLogs ++ [j] } := by
  constructor
  · simp [agGo, h1, h2, h3]
  · simp [kgGo, h4, h5]

/-- Witness for C6's amended statement: a concrete non-quota failure in each
loop. -/
theorem per_line_error_handling_amended_witness :
    agGo "Q" (fun _ => some "v") (fun _ _ _ _ _ => .failure "boom") none 4
        [("Guard", "Hi")] ⟨[], 0, [], none, []⟩
      = agGo "Q" (fun _ => some "v") (fun _ _ _ _ _ => .failure "boom") (some "Hi") 5 []
          ⟨[], 0, [4 + 1], none, [("Guard", "v", "Hi", none, none)]⟩ ∧
    kgGo "Q" (fun _ => some "v") (fun _ _ _ => .failure "boom") 4
        [("Guard", "Hi")] ⟨[], 0, 0, 0, [], []⟩
      = kgGo "Q" (fun _ => some "v") (fun _ _ _ => .failure "boom") 5 []
          ⟨[], 0, 0, 1, [4], [("Guard", "v", "Hi")]⟩ :=
  per_line_error_handling_amended "Q" "Q" (fun _ => some "v") (fun _ => some "v")
    (fun _ _ _ _ _ => .failure "boom") (fun _ _ _ => .failure "boom")
    none 4 4 "Guard" "Hi" "v" "v" "boom" "boom" [] [] ⟨[], 0, [], none, []⟩
    ⟨[], 0, 0, 0, [], []⟩ rfl rfl (by decide) rfl rfl

/-! ## Claim C7 -/

/-- C7: both write paths — the incremental Kokoro one
(`if not dialog_exists: insert_dialog`) and the batch ElevenLabs one
(`insert_quest_voiceover`, the spec's `recordIfAbsent`) — are guarded by the
exists check on exact (character, text) equality: a record already present
suppresses the insert, and a store without duplicate (character, text) pairs
stays that way. -/
theorem store_duplicate_suppression
    (db : List ResultRecord) (quest character text uri : String) :
    (dialogExistsIn db character text = true →
      kokoroDbWrite db quest character text uri = db ∧
      insert_quest_voiceover db quest character text uri = db) ∧
    (NoDupPairs db →
      NoDupPairs (kokoroDbWrite db quest character text uri) ∧
      NoDupPairs (insert_quest_voiceover db quest character text uri)) := by
  constructor
  · intro h
    simp [kokoroDbWrite, insert_quest_voiceover, h]
  · intro hnd
    by_cases h : dialogExistsIn db character text
    · simp [kokoroDbWrite, insert_quest_voiceover, h, hnd]
    · have hall : ∀ r ∈ db, ¬(r.character = character ∧ r.text = text) := by
        intro r hr hand
        apply h
        rw [dialogExistsIn, List.any_eq_true]
        exact ⟨r, hr, by simp [hand.1, hand.2]⟩
      have hnew : NoDupPairs (db ++ [⟨quest, character, text, uri⟩]) := by
        rw [NoDupPairs, List.pairwise_append]
        refine ⟨hnd, List.pairwise_singleton _ _, ?_⟩
        intro a ha b hb
        rw [List.mem_singleton] at hb
        subst hb
        exact hall a ha
      constructor
      · simpa [kokoroDbWrite, insert_dialog, h] using hnew
      · simpa [insert_quest_voiceover, h] using hnew

/-- Witness for C7: a one-row store; re-inserting the same (character, text)
leaves it unchanged, and inserting a fresh pair preserves the invariant. -/
theorem store_duplicate_suppression_witness :
    kokoroDbWrite [⟨"Q", "Guard", "Hi", "f1"⟩] "Q" "Guard" "Hi" "f2"
      = [⟨"Q", "Guard", "Hi", "f1"⟩] ∧
    insert_quest_voiceover [⟨"Q", "Guard", "Hi", "f1"⟩] "Q" "Guard" "Hi" "f2"
      = [⟨"Q", "Guard", "Hi", "f1"⟩] ∧
    NoDupPairs (kokoroDbWrite [⟨"Q", "Guard", "Hi", "f1"⟩] "Q" "Ana" "Yo" "f3") :=
  ⟨((store_duplicate_suppression [⟨"Q", "Guard", "Hi", "f1"⟩] "Q" "Guard" "Hi" "f2").1
      (by decide)).1,
   ((store_duplicate_suppression [⟨"Q", "Guard", "Hi", "f1"⟩] "Q" "Guard" "Hi" "f2").1
      (by decide)).2,
   ((store_duplicate_suppression [⟨"Q", "Guard", "Hi", "f1"⟩] "Q" "Ana" "Yo" "f3").2
      (by simp [NoDupPairs])).1⟩

end QuestVoiceover
